import Mathlib

/-!
Verification of the QDR discrete portfolio optimizer core
(`src/qdr_core/engine.py`, class `QuantumOptimizer`).

The embedding is shallow:
* a solver sample is a function `ℕ → ℕ → Bool` giving the bit `x[i][b]`;
* machine floats become `ℝ` (for statistics and the QUBO objective) or `ℚ`
  (for the decoded, normalized weights, which are exact rationals in the code
  up to float rounding); pandas `NaN` results are modelled as `Option.none`;
* asset tickers are assumed pairwise distinct (the data model's PriceSeries is
  a mapping keyed by asset identifier), so a Python dict keyed by ticker is
  modelled as a vector indexed by the asset's position in `tickers`.
-/

namespace QDR

/-- Value of one binary variable of a sample, as the integer 0 or 1. -/
def bit_val (s : ℕ → ℕ → Bool) (i b : ℕ) : ℕ := if s i b then 1 else 0

/-- `num_bits = math.floor(math.log2(num_slices)) + 1` (engine.py line 56),
with the float `log2` read as exact integer base-2 logarithm. -/
def num_bits (num_slices : ℕ) : ℕ := Nat.log2 num_slices + 1

/-- Integer slice count of asset `i`: `k_i = Σ_b 2^b * x[i][b]`
(the `assets_k_expr` loop and the manual decode loop of engine.py). -/
def slice_count (nb : ℕ) (s : ℕ → ℕ → Bool) (i : ℕ) : ℕ :=
  ∑ b ∈ Finset.range nb, 2 ^ b * bit_val s i b

/-- `total_k = Σ_i k_i`, the decoded total slice count over the `n` assets. -/
def total_k (nb n : ℕ) (s : ℕ → ℕ → Bool) : ℕ :=
  ∑ i ∈ Finset.range n, slice_count nb s i

/-- The denominator used for normalization: `if total_k == 0: total_k = 1`
(engine.py lines 124-125). -/
def decode_denom (nb n : ℕ) (s : ℕ → ℕ → Bool) : ℕ :=
  if total_k nb n s = 0 then 1 else total_k nb n s

/-- Normalized weight of the asset at index `i`:
`normalized_weights = {k: v / total_k for k, v in weights.items()}`. -/
def normalized_weights (nb n : ℕ) (s : ℕ → ℕ → Bool) (i : ℕ) : ℚ :=
  (slice_count nb s i : ℚ) / (decode_denom nb n s : ℚ)

/-- Result status: `"optimal" if best_sample.constraints(only_broken=True) == {}
else "approximate"`.  The only constraint is `(Σ_i k_i - num_slices)^2 = 0`,
so it is broken exactly when `total_k ≠ num_slices`. -/
def opt_status (nb n ns : ℕ) (s : ℕ → ℕ → Bool) : String :=
  if total_k nb n s = ns then "optimal" else "approximate"

/-- Whether the decoded slice counts of a sample satisfy the budget
constraint `Σ_i k_i = num_slices` (the spec's `constraintSatisfied` flag). -/
def constraint_satisfied (nb n ns : ℕ) (s : ℕ → ℕ → Bool) : Bool :=
  total_k nb n s == ns

/-- The record returned by `calculate_portfolio_metrics`. -/
structure PortfolioMetrics where
  volatility : ℝ
  expected_return : ℝ
  sharpe_ratio : ℝ

/-- The weight vector the code builds from a weight dict:
`weights = np.array([weights_dict.get(ticker, 0.0) for ticker in self.tickers])`
(engine.py line 18).  A dict is a partial map `String → Option ℝ`; a missing
key contributes `0.0`. -/
def weights_vec (tickers : List String) (weights_dict : String → Option ℝ)
    (i : ℕ) : ℝ :=
  (weights_dict (tickers.getD i default)).getD 0

/-- `variance = np.dot(weights.T, np.dot(self.sigma, weights))`
= `Σ_i Σ_j w_i · sigma[i][j] · w_j`. -/
def portfolio_variance (sigma : ℕ → ℕ → ℝ) (n : ℕ) (w : ℕ → ℝ) : ℝ :=
  ∑ i ∈ Finset.range n, ∑ j ∈ Finset.range n, w i * sigma i j * w j

/-- `np.dot(weights.T, self.mu)` = `Σ_i w_i · mu[i]`. -/
def portfolio_return (mu : ℕ → ℝ) (n : ℕ) (w : ℕ → ℝ) : ℝ :=
  ∑ i ∈ Finset.range n, w i * mu i

/-- `QuantumOptimizer.calculate_portfolio_metrics` (engine.py lines 14-33).
The annualization constant `252` appears literally in the source
(`np.sqrt(252)` and `* 252`). -/
noncomputable def calculate_portfolio_metrics (tickers : List String) (mu : ℕ → ℝ)
    (sigma : ℕ → ℕ → ℝ) (weights_dict : String → Option ℝ) : PortfolioMetrics :=
  let n := tickers.length
  let w := weights_vec tickers weights_dict
  let volatility := Real.sqrt (portfolio_variance sigma n w) * Real.sqrt 252
  let expected_return := portfolio_return mu n w * 252
  { volatility := volatility
    expected_return := expected_return
    sharpe_ratio := if 0 < volatility then expected_return / volatility else 0 }

/-- The spec's `scorePortfolio` written from its words (section 4.5), with the
annualization factor as a configurable input:
`volatility = sqrt(weightsᵗ·sigma·weights)·sqrt(annualizationFactor)`,
`expectedReturn = (weightsᵗ·mu)·annualizationFactor`,
`sharpeRatio = expectedReturn / volatility` if positive volatility else `0`. -/
noncomputable def spec_score_portfolio (annualization_factor : ℝ) (tickers : List String)
    (mu : ℕ → ℝ) (sigma : ℕ → ℕ → ℝ) (weights_dict : String → Option ℝ) :
    PortfolioMetrics :=
  let n := tickers.length
  let w := weights_vec tickers weights_dict
  let volatility :=
    Real.sqrt (portfolio_variance sigma n w) * Real.sqrt annualization_factor
  let expected_return := portfolio_return mu n w * annualization_factor
  { volatility := volatility
    expected_return := expected_return
    sharpe_ratio := if 0 < volatility then expected_return / volatility else 0 }

/-- C9: for every `numSlices ≥ 1`, `numBits = floor(log2 numSlices) + 1`
satisfies `2^numBits - 1 ≥ numSlices` (every integer in `[0, numSlices]` fits
in `numBits` bits) and `2^(numBits-1) - 1 < numSlices` (one bit fewer does
not suffice), i.e. it is the minimum sufficient width. -/
theorem c9_num_bits_minimal (n : ℕ) (h : 1 ≤ n) :
    n ≤ 2 ^ num_bits n - 1 ∧ 2 ^ (num_bits n - 1) - 1 < n := by
  constructor
  · have h2 : n < 2 ^ (Nat.log2 n + 1) := Nat.lt_log2_self
    simp only [num_bits]
    omega
  · have h1 : 2 ^ Nat.log2 n ≤ n := Nat.log2_self_le (by omega)
    simp only [num_bits, Nat.add_sub_cancel]
    omega

/-- C9 witness: the bounds instantiated at `numSlices = 10`, where
`numBits = 4`. -/
theorem c9_num_bits_minimal_witness :
    1 ≤ 10 ∧ (10 ≤ 2 ^ num_bits 10 - 1 ∧ 2 ^ (num_bits 10 - 1) - 1 < 10) :=
  ⟨by decide, c9_num_bits_minimal 10 (by decide)⟩

/-- The `volatility` field of the code's metrics, unfolded. -/
lemma metrics_volatility_def (tickers : List String) (mu : ℕ → ℝ)
    (sigma : ℕ → ℕ → ℝ) (weights_dict : String → Option ℝ) :
    (calculate_portfolio_metrics tickers mu sigma weights_dict).volatility
      = Real.sqrt
          (portfolio_variance sigma tickers.length (weights_vec tickers weights_dict))
        * Real.sqrt 252 := rfl

/-- The `expected_return` field of the code's metrics, unfolded. -/
lemma metrics_expected_return_def (tickers : List String) (mu : ℕ → ℝ)
    (sigma : ℕ → ℕ → ℝ) (weights_dict : String → Option ℝ) :
    (calculate_portfolio_metrics tickers mu sigma weights_dict).expected_return
      = portfolio_return mu tickers.length (weights_vec tickers weights_dict)
        * 252 := rfl

/-- The `sharpe_ratio` field of the code's metrics, unfolded. -/
lemma metrics_sharpe_def (tickers : List String) (mu : ℕ → ℝ)
    (sigma : ℕ → ℕ → ℝ) (weights_dict : String → Option ℝ) :
    (calculate_portfolio_metrics tickers mu sigma weights_dict).sharpe_ratio
      = if 0 < (calculate_portfolio_metrics tickers mu sigma weights_dict).volatility
        then (calculate_portfolio_metrics tickers mu sigma weights_dict).expected_return
          / (calculate_portfolio_metrics tickers mu sigma weights_dict).volatility
        else 0 := rfl

/-- The `expected_return` field of the spec's metrics, unfolded. -/
lemma spec_expected_return_def (af : ℝ) (tickers : List String) (mu : ℕ → ℝ)
    (sigma : ℕ → ℕ → ℝ) (weights_dict : String → Option ℝ) :
    (spec_score_portfolio af tickers mu sigma weights_dict).expected_return
      = portfolio_return mu tickers.length (weights_vec tickers weights_dict)
        * af := rfl

/-- C3 (amended): the code's metrics are exactly the spec formula with the
annualization factor fixed at 252 (hardcoded in the source, not configurable);
`sharpeRatio = expectedReturn / volatility` when `volatility > 0` and exactly
`0` when `volatility = 0`. -/
theorem c3_metrics_formula (tickers : List String) (mu : ℕ → ℝ)
    (sigma : ℕ → ℕ → ℝ) (weights_dict : String → Option ℝ) :
    calculate_portfolio_metrics tickers mu sigma weights_dict
      = spec_score_portfolio 252 tickers mu sigma weights_dict
    ∧ ((calculate_portfolio_metrics tickers mu sigma weights_dict).volatility = 0 →
        (calculate_portfolio_metrics tickers mu sigma weights_dict).sharpe_ratio = 0)
    ∧ (0 < (calculate_portfolio_metrics tickers mu sigma weights_dict).volatility →
        (calculate_portfolio_metrics tickers mu sigma weights_dict).sharpe_ratio
          = (calculate_portfolio_metrics tickers mu sigma weights_dict).expected_return
            / (calculate_portfolio_metrics tickers mu sigma weights_dict).volatility) := by
  refine ⟨rfl, ?_, ?_⟩
  · intro hv
    rw [metrics_sharpe_def, hv]
    simp
  · intro hv
    rw [metrics_sharpe_def, if_pos hv]

/-- Mean return vector that is constantly 1 (concrete test statistics). -/
def mu_one : ℕ → ℝ := fun _ => 1

/-- Covariance matrix that is constantly 0 (concrete test statistics). -/
def sigma_zero : ℕ → ℕ → ℝ := fun _ _ => 0

/-- Weight dict giving every asset weight 1 (concrete test input). -/
def dict_one : String → Option ℝ := fun _ => some 1

/-- C3 counterexample: the annualization factor is not configurable — the
code's metrics disagree with the spec formula at any factor other than 252,
here at the factor 12 (monthly data) on a concrete one-asset input, where the
code returns `expectedReturn = 252` and a 12-period annualization gives 12. -/
theorem c3_counterexample :
    calculate_portfolio_metrics ["A"] mu_one sigma_zero dict_one
      ≠ spec_score_portfolio 12 ["A"] mu_one sigma_zero dict_one := by
  intro h
  have h2 := congrArg PortfolioMetrics.expected_return h
  have hr : portfolio_return mu_one (List.length ["A"])
      (weights_vec ["A"] dict_one) = 1 := by
    simp [portfolio_return, weights_vec, dict_one, mu_one]
  rw [metrics_expected_return_def, spec_expected_return_def, hr] at h2
  norm_num at h2

/-- C3 witness: at the concrete zero-covariance input the volatility is 0 and
the Sharpe ratio is exactly 0. -/
theorem c3_metrics_formula_witness :
    (calculate_portfolio_metrics ["A"] mu_one sigma_zero dict_one).sharpe_ratio
      = 0 := by
  refine (c3_metrics_formula ["A"] mu_one sigma_zero dict_one).2.1 ?_
  rw [metrics_volatility_def]
  have : portfolio_variance sigma_zero (List.length ["A"])
      (weights_vec ["A"] dict_one) = 0 := by
    simp [portfolio_variance, sigma_zero]
  rw [this, Real.sqrt_zero, zero_mul]

/-- C10: an asset absent from the weight dict is scored with weight 0, and
the metrics depend only on the dict's restriction to the optimizer's asset
list (keys outside `tickers` are ignored), read in the optimizer's asset
order. -/
theorem c10_metrics_restriction (tickers : List String) (mu : ℕ → ℝ)
    (sigma : ℕ → ℕ → ℝ) :
    (∀ (weights_dict : String → Option ℝ) (i : ℕ), i < tickers.length →
        weights_dict (tickers.getD i default) = none →
        weights_vec tickers weights_dict i = 0)
    ∧ ∀ d1 d2 : String → Option ℝ, (∀ t ∈ tickers, d1 t = d2 t) →
        calculate_portfolio_metrics tickers mu sigma d1
          = calculate_portfolio_metrics tickers mu sigma d2 := by
  constructor
  · intro d i _ h
    unfold weights_vec
    rw [h]
    rfl
  · intro d1 d2 hagree
    have hw : ∀ i ∈ Finset.range tickers.length,
        weights_vec tickers d1 i = weights_vec tickers d2 i := by
      intro i hi
      have hi' := Finset.mem_range.mp hi
      have hmem : tickers.getD i default ∈ tickers := by
        rw [tickers.getD_eq_getElem default hi']
        exact tickers.getElem_mem hi'
      simp only [weights_vec, hagree _ hmem]
    have hv : portfolio_variance sigma tickers.length (weights_vec tickers d1)
        = portfolio_variance sigma tickers.length (weights_vec tickers d2) := by
      unfold portfolio_variance
      refine Finset.sum_congr rfl fun i hi => Finset.sum_congr rfl fun j hj => ?_
      rw [hw i hi, hw j hj]
    have hr : portfolio_return mu tickers.length (weights_vec tickers d1)
        = portfolio_return mu tickers.length (weights_vec tickers d2) := by
      unfold portfolio_return
      refine Finset.sum_congr rfl fun i hi => ?_
      rw [hw i hi]
    simp only [calculate_portfolio_metrics]
    rw [hv, hr]

/-- Weight dict with no entries (concrete test input). -/
def dict_none : String → Option ℝ := fun _ => none

/-- Weight dict agreeing with `dict_none` on the asset `"A"` but holding an
extra, ignored key (concrete test input). -/
def dict_extra : String → Option ℝ := fun t => if t == "A" then none else some 5

/-- C10 witness: on the one-asset universe `["A"]`, a dict with an extra key
for an unknown asset yields the same metrics as the empty dict. -/
theorem c10_metrics_restriction_witness :
    calculate_portfolio_metrics ["A"] mu_one sigma_zero dict_none
      = calculate_portfolio_metrics ["A"] mu_one sigma_zero dict_extra :=
  (c10_metrics_restriction ["A"] mu_one sigma_zero).2 dict_none dict_extra (by
    intro t ht
    rw [List.mem_singleton] at ht
    subst ht
    rfl)

/-- C1: whenever the decoded slice counts have a positive total, every
normalized weight lies in `[0, 1]` and the weights sum to exactly 1 (hence
within the 1e-6 floating tolerance). -/
theorem c1_decoded_weights_normalized (nb n : ℕ) (s : ℕ → ℕ → Bool)
    (h : 0 < total_k nb n s) :
    (∀ i ∈ Finset.range n,
        0 ≤ normalized_weights nb n s i ∧ normalized_weights nb n s i ≤ 1)
    ∧ (∑ i ∈ Finset.range n, normalized_weights nb n s i) = 1
    ∧ |(∑ i ∈ Finset.range n, normalized_weights nb n s i) - 1|
        ≤ 1 / 1000000 := by
  have h0 : total_k nb n s ≠ 0 := Nat.pos_iff_ne_zero.mp h
  have hd : decode_denom nb n s = total_k nb n s := by
    unfold decode_denom
    rw [if_neg h0]
  have hTpos : (0 : ℚ) < (total_k nb n s : ℚ) := by exact_mod_cast h
  have hsum : (∑ i ∈ Finset.range n, normalized_weights nb n s i) = 1 := by
    unfold normalized_weights
    rw [hd, ← Finset.sum_div]
    rw [show (∑ i ∈ Finset.range n, (slice_count nb s i : ℚ))
          = (total_k nb n s : ℚ) by
        unfold total_k
        push_cast
        rfl]
    exact div_self (ne_of_gt hTpos)
  refine ⟨?_, hsum, by rw [hsum]; norm_num⟩
  intro i hi
  have hle : slice_count nb s i ≤ total_k nb n s :=
    Finset.single_le_sum (f := fun j => slice_count nb s j)
      (fun j _ => Nat.zero_le _) hi
  constructor
  · unfold normalized_weights
    positivity
  · unfold normalized_weights
    rw [hd, div_le_one hTpos]
    exact_mod_cast hle

/-- A concrete sample whose only set bit is `x[0][0]` (so the decoded slice
counts are `k_0 = 1`, `k_1 = 0`). -/
def one_hot_sample : ℕ → ℕ → Bool := fun i _ => i == 0

/-- C1 witness: on the concrete two-asset sample with one set bit, the total
is positive and the normalization facts hold. -/
theorem c1_decoded_weights_normalized_witness :
    0 < total_k 1 2 one_hot_sample
    ∧ ((∀ i ∈ Finset.range 2,
          0 ≤ normalized_weights 1 2 one_hot_sample i
          ∧ normalized_weights 1 2 one_hot_sample i ≤ 1)
        ∧ (∑ i ∈ Finset.range 2, normalized_weights 1 2 one_hot_sample i) = 1
        ∧ |(∑ i ∈ Finset.range 2, normalized_weights 1 2 one_hot_sample i) - 1|
            ≤ 1 / 1000000) :=
  ⟨by decide, c1_decoded_weights_normalized 1 2 one_hot_sample (by decide)⟩

/-- C6 (amended): when the best sample decodes to total slice count 0, the
decoder divides by the fallback denominator 1 (no division by zero, no
exception), every returned weight is 0, and the returned status is
`"approximate"` — the budget constraint is broken — not `"degenerate"`. -/
theorem c6_zero_total_fallback (nb n ns : ℕ) (s : ℕ → ℕ → Bool)
    (h0 : total_k nb n s = 0) (hns : ns ≠ 0) :
    decode_denom nb n s = 1
    ∧ (∀ i < n, normalized_weights nb n s i = 0)
    ∧ opt_status nb n ns s = "approximate" := by
  refine ⟨?_, ?_, ?_⟩
  · unfold decode_denom
    rw [if_pos h0]
  · intro i hi
    have hk : slice_count nb s i = 0 := by
      have := (Finset.sum_eq_zero_iff.mp h0) i (Finset.mem_range.mpr hi)
      exact this
    unfold normalized_weights
    rw [hk]
    simp
  · unfold opt_status
    rw [if_neg]
    omega

/-- The all-zero sample (no bit set). -/
def zero_sample : ℕ → ℕ → Bool := fun _ _ => false

/-- C6 counterexample: on the all-zero best sample the code's status is
`"approximate"`, never the claimed `"degenerate"`. -/
theorem c6_counterexample :
    total_k 1 1 zero_sample = 0
    ∧ opt_status 1 1 1 zero_sample = "approximate"
    ∧ opt_status 1 1 1 zero_sample ≠ "degenerate" := by
  refine ⟨by decide, ?_, ?_⟩
  · unfold opt_status
    rw [if_neg (by decide)]
  · unfold opt_status
    rw [if_neg (by decide)]
    decide

/-- C6 witness: the amended statement instantiated on the all-zero sample. -/
theorem c6_zero_total_fallback_witness :
    decode_denom 1 1 zero_sample = 1
    ∧ (∀ i < 1, normalized_weights 1 1 zero_sample i = 0)
    ∧ opt_status 1 1 1 zero_sample = "approximate" :=
  c6_zero_total_fallback 1 1 1 zero_sample (by decide) (by decide)

/-- Real-valued slice count `k_i` of a sample, as it enters the objective. -/
def asset_k (nb : ℕ) (s : ℕ → ℕ → Bool) (i : ℕ) : ℝ :=
  (slice_count nb s i : ℝ)

/-- The risk term of the objective: `Σ_i Σ_j sigma[i][j] · k_i · k_j`
(the double loop over `cov_matrix` in engine.py lines 79-81). -/
def risk_term (sigma : ℕ → ℕ → ℝ) (n : ℕ) (k : ℕ → ℝ) : ℝ :=
  ∑ i ∈ Finset.range n, ∑ j ∈ Finset.range n, sigma i j * k i * k j

/-- The return accumulator: `Σ_i mu[i] · k_i` (engine.py lines 84-86). -/
def return_term (mu : ℕ → ℝ) (n : ℕ) (k : ℕ → ℝ) : ℝ :=
  ∑ i ∈ Finset.range n, mu i * k i

/-- The Hamiltonian built by `optimize_portfolio` (engine.py lines 69-92),
evaluated on a bit sample: risk, minus `risk_aversion · num_slices` times the
return accumulator, plus the pyqubo `Constraint((Σ k - num_slices)**2)`
penalty, which carries no multiplier (unit penalty coefficient). -/
def hamiltonian (sigma : ℕ → ℕ → ℝ) (mu : ℕ → ℝ) (risk_aversion : ℝ)
    (num_slices n nb : ℕ) (s : ℕ → ℕ → Bool) : ℝ :=
  risk_term sigma n (asset_k nb s)
    - risk_aversion * num_slices * return_term mu n (asset_k nb s)
    + ((∑ i ∈ Finset.range n, asset_k nb s i) - num_slices) ^ 2

/-- The spec's objective (section 4.3), written from its words with an
explicit penalty coefficient `P`, as a function of the slice counts `k`. -/
def spec_objective (P : ℝ) (sigma : ℕ → ℕ → ℝ) (mu : ℕ → ℝ) (lam : ℝ)
    (num_slices n : ℕ) (k : ℕ → ℝ) : ℝ :=
  (∑ i ∈ Finset.range n, ∑ j ∈ Finset.range n, sigma i j * k i * k j)
    - lam * num_slices * (∑ i ∈ Finset.range n, mu i * k i)
    + P * ((∑ i ∈ Finset.range n, k i) - num_slices) ^ 2

/-- C2 (amended): on every bit assignment the built objective equals the
spec's formula over the slice counts `k_i = Σ_b 2^b·x[i][b]`, with penalty
coefficient `P = 1` — the coefficient is fixed at 1, not chosen to dominate
the risk/return scale. -/
theorem c2_objective_formula (sigma : ℕ → ℕ → ℝ) (mu : ℕ → ℝ)
    (risk_aversion : ℝ) (num_slices n nb : ℕ) (s : ℕ → ℕ → Bool) :
    hamiltonian sigma mu risk_aversion num_slices n nb s
      = spec_objective 1 sigma mu risk_aversion num_slices n (asset_k nb s) := by
  unfold hamiltonian spec_objective risk_term return_term
  rw [one_mul]

/-- Constant covariance 100 (concrete statistics refuting penalty dominance). -/
def sigma_hundred : ℕ → ℕ → ℝ := fun _ _ => 100

/-- Constant-zero mean return vector. -/
def mu_zero : ℕ → ℝ := fun _ => 0

/-- The all-one sample (every bit set). -/
def ones_sample : ℕ → ℕ → Bool := fun _ _ => true

/-- C2 counterexample: with one asset, one bit, `numSlices = 1` and
covariance 100, there is no penalty coefficient `P` that both reproduces the
built objective and bounds the attainable risk magnitude: the built objective
forces `P = 1` (its value on the all-zero sample), while the all-one sample
attains risk magnitude 100 > 1. -/
theorem c2_counterexample :
    ¬ ∃ P : ℝ,
      (∀ s : ℕ → ℕ → Bool,
          hamiltonian sigma_hundred mu_zero 0 1 1 1 s
            = spec_objective P sigma_hundred mu_zero 0 1 1 (asset_k 1 s))
      ∧ ∀ s : ℕ → ℕ → Bool,
          |risk_term sigma_hundred 1 (asset_k 1 s)| ≤ P := by
  rintro ⟨P, hEq, hDom⟩
  have h0 := hEq zero_sample
  have h1 := hDom ones_sample
  have hz : asset_k 1 zero_sample 0 = 0 := by
    simp [asset_k, slice_count, bit_val, zero_sample]
  have ho : asset_k 1 ones_sample 0 = 1 := by
    simp [asset_k, slice_count, bit_val, ones_sample]
  rw [show hamiltonian sigma_hundred mu_zero 0 1 1 1 zero_sample = 1 by
        unfold hamiltonian risk_term return_term
        simp [Finset.sum_range_one, hz],
      show spec_objective P sigma_hundred mu_zero 0 1 1 (asset_k 1 zero_sample)
          = P by
        unfold spec_objective
        simp [Finset.sum_range_one, hz]] at h0
  rw [show risk_term sigma_hundred 1 (asset_k 1 ones_sample) = 100 by
        unfold risk_term
        simp [Finset.sum_range_one, ho, sigma_hundred]] at h1
  rw [abs_of_nonneg (by norm_num)] at h1
  linarith

/-- A decoded solver sample: the energy reported by the sampler and the bit
assignment (`pyqubo` decoded sample). -/
structure DecodedSample where
  energy : ℚ
  bits : ℕ → ℕ → Bool

/-- One comparison step of Python's `min` with `key=lambda x: x.energy`:
the running best is replaced only on a strictly smaller key, so on ties the
earlier element is kept. -/
def min_step (best x : DecodedSample) : DecodedSample :=
  if x.energy < best.energy then x else best

/-- `min(decoded_samples, key=lambda x: x.energy)` (engine.py line 102):
first element on an empty list Python raises, modelled as `none`. -/
def py_min_by_energy : List DecodedSample → Option DecodedSample
  | [] => none
  | a :: rest => some (rest.foldl min_step a)

lemma foldl_min_step_mem (l : List DecodedSample) :
    ∀ a, l.foldl min_step a = a ∨ l.foldl min_step a ∈ l := by
  induction l with
  | nil => intro a; exact Or.inl rfl
  | cons b t ih =>
    intro a
    simp only [List.foldl_cons]
    rcases ih (min_step a b) with h | h
    · by_cases hb : b.energy < a.energy
      · right
        rw [h]
        unfold min_step
        rw [if_pos hb]
        exact List.mem_cons_self b t
      · left
        rw [h]
        unfold min_step
        rw [if_neg hb]
    · exact Or.inr (List.mem_cons_of_mem b h)

lemma foldl_min_step_le (l : List DecodedSample) :
    ∀ a, (l.foldl min_step a).energy ≤ a.energy
      ∧ ∀ s ∈ l, (l.foldl min_step a).energy ≤ s.energy := by
  induction l with
  | nil =>
    intro a
    refine ⟨le_refl _, ?_⟩
    intro s hs
    cases hs
  | cons b t ih =>
    intro a
    simp only [List.foldl_cons]
    obtain ⟨h1, h2⟩ := ih (min_step a b)
    have hma : (min_step a b).energy ≤ a.energy := by
      by_cases hb : b.energy < a.energy
      · unfold min_step; rw [if_pos hb]; exact le_of_lt hb
      · unfold min_step; rw [if_neg hb]
    have hmb : (min_step a b).energy ≤ b.energy := by
      by_cases hb : b.energy < a.energy
      · unfold min_step; rw [if_pos hb]
      · unfold min_step; rw [if_neg hb]; exact le_of_not_lt hb
    refine ⟨le_trans h1 hma, ?_⟩
    intro s hs
    rcases List.mem_cons.mp hs with rfl | hs
    · exact le_trans h1 hmb
    · exact h2 s hs

/-- C7 (amended): the selected sample is one of the solver's samples and has
the lowest energy among them; ties are broken by position in the sample list
(the first minimal element wins), with no preference for samples satisfying
the budget constraint. -/
theorem c7_lowest_energy_selected (l : List DecodedSample) (h : l ≠ []) :
    ∃ best, py_min_by_energy l = some best ∧ best ∈ l
      ∧ ∀ s ∈ l, best.energy ≤ s.energy := by
  cases l with
  | nil => exact absurd rfl h
  | cons a t =>
    refine ⟨t.foldl min_step a, rfl, ?_, ?_⟩
    · rcases foldl_min_step_mem t a with h1 | h1
      · rw [h1]; exact List.mem_cons_self a t
      · exact List.mem_cons_of_mem a h1
    · intro s hs
      obtain ⟨h1, h2⟩ := foldl_min_step_le t a
      rcases List.mem_cons.mp hs with rfl | hs
      · exact h1
      · exact h2 s hs

/-- An energy-0 sample with no bit set: it violates the budget constraint. -/
def violating_sample : DecodedSample := ⟨0, zero_sample⟩

/-- An energy-0 sample with every bit set: with one asset, one bit and
`numSlices = 1` it satisfies the budget constraint. -/
def satisfying_sample : DecodedSample := ⟨0, ones_sample⟩

/-- C7 counterexample: among two samples sharing the lowest energy, the code
returns the first in sample order — a constraint-violating one — even though
a constraint-satisfying sample with the same energy exists. -/
theorem c7_counterexample :
    py_min_by_energy [violating_sample, satisfying_sample]
        = some violating_sample
    ∧ violating_sample.energy = satisfying_sample.energy
    ∧ constraint_satisfied 1 1 1 violating_sample.bits = false
    ∧ constraint_satisfied 1 1 1 satisfying_sample.bits = true := by
  refine ⟨?_, rfl, by decide, by decide⟩
  unfold py_min_by_energy
  simp only [List.foldl_cons, List.foldl_nil]
  unfold min_step
  rw [if_neg (by decide)]

/-- C7 witness: the amended selection statement on a concrete two-sample
list with distinct energies. -/
theorem c7_lowest_energy_selected_witness :
    ∃ best,
      py_min_by_energy [⟨5, zero_sample⟩, ⟨3, ones_sample⟩] = some best
      ∧ best ∈ [⟨5, zero_sample⟩, ⟨3, ones_sample⟩]
      ∧ ∀ s ∈ [(⟨5, zero_sample⟩ : DecodedSample), ⟨3, ones_sample⟩],
          best.energy ≤ s.energy :=
  c7_lowest_energy_selected [⟨5, zero_sample⟩, ⟨3, ones_sample⟩]
    (List.cons_ne_nil _ _)

/-- `prices.pct_change().dropna()` (engine.py line 9): row `t` of the result
is `price[t+1]/price[t] - 1`, elementwise; the initial all-NaN row is the one
dropped.  Prices are embedded as exact rationals. -/
def pct_change (prices : List (List ℚ)) : List (List ℚ) :=
  (prices.zip prices.tail).map fun pr =>
    (pr.1.zip pr.2).map fun ab => ab.2 / ab.1 - 1

/-- Column `i` of a row-major table. -/
def col (rows : List (List ℚ)) (i : ℕ) : List ℚ :=
  rows.map fun r => r.getD i 0

/-- `pandas.Series.mean`: `NaN` (modelled as `none`) on an empty series. -/
def mean_nan (xs : List ℚ) : Option ℚ :=
  if xs.length = 0 then none else some (xs.sum / xs.length)

/-- One entry of `pandas.DataFrame.cov` (sample covariance, `ddof = 1`):
`NaN` (modelled as `none`) when fewer than two observations exist. -/
def cov_nan (xs ys : List ℚ) : Option ℚ :=
  if xs.length ≤ 1 then none
  else
    some
      ((((xs.zip ys).map fun p =>
          (p.1 - xs.sum / xs.length) * (p.2 - ys.sum / ys.length)).sum)
        / ((xs.length : ℚ) - 1))

/-- `self.mu = self.returns.mean()` (engine.py line 10) for asset column `i`. -/
def engine_mu (prices : List (List ℚ)) (i : ℕ) : Option ℚ :=
  mean_nan (col (pct_change prices) i)

/-- `self.sigma = self.returns.cov()` (engine.py line 11), entry `(i, j)`. -/
def engine_sigma (prices : List (List ℚ)) (i j : ℕ) : Option ℚ :=
  cov_nan (col (pct_change prices) i) (col (pct_change prices) j)

/-- C4 evaluation: `QuantumOptimizer.__init__` guards nothing.  On a one-row
price history (`T = 1 < 2`) the returns are empty and the mean is NaN
(`none`), returned silently rather than raised as `InsufficientDataError`;
on a constant (zero-variance) column the statistics are computed as exact
zeros, again with no error. -/
theorem c4_no_insufficient_data_guard :
    engine_mu [[100]] 0 = none
    ∧ engine_mu [[100], [100], [100]] 0 = some 0
    ∧ engine_sigma [[100], [100], [100]] 0 0 = some 0 := by
  refine ⟨rfl, ?_, ?_⟩ <;>
    norm_num [engine_mu, engine_sigma, mean_nan, cov_nan, pct_change, col]

/-- The result dictionary of `optimize_portfolio` (engine.py lines 133-138). -/
structure OptResult where
  weights : List ℚ
  original_units : List ℕ
  metrics : PortfolioMetrics
  status : String

/-- `QuantumOptimizer.optimize_portfolio` (engine.py lines 35-138).  The
external simulated-annealing sampler is abstracted as a function `sampler`
from the built objective to the list of decoded samples it returns; the code
passes it no seed and a fixed `num_reads=100`, `num_sweeps=1000`.  `none`
models an uncaught exception: `math.log2` raises on `num_slices ≤ 0`, and
Python's `min` raises on an empty sample list.  No input validation of any
kind precedes the computation. -/
noncomputable def optimize_portfolio (tickers : List String) (mu : ℕ → ℝ)
    (sigma : ℕ → ℕ → ℝ) (risk_aversion : ℝ) (num_slices : ℕ)
    (sampler : ((ℕ → ℕ → Bool) → ℝ) → List DecodedSample) : Option OptResult :=
  if num_slices = 0 then none
  else
    let n := tickers.length
    let nb := num_bits num_slices
    let samples := sampler (hamiltonian sigma mu risk_aversion num_slices n nb)
    match py_min_by_energy samples with
    | none => none
    | some best =>
      let ws := (List.range n).map (normalized_weights nb n best.bits)
      let weights_dict := fun t =>
        ((tickers.zip ws).lookup t).map fun q => (q : ℝ)
      some
        { weights := ws
          original_units := (List.range n).map (slice_count nb best.bits)
          metrics := calculate_portfolio_metrics tickers mu sigma weights_dict
          status := opt_status nb n num_slices best.bits }

/-- A sampler stub returning a single all-zero sample whatever the objective
(stands in for the external annealer's output). -/
def const_sampler : ((ℕ → ℕ → Bool) → ℝ) → List DecodedSample :=
  fun _ => [⟨0, zero_sample⟩]

/-- C5 evaluation: no `InvalidInputError` exists and no input is rejected —
with an empty asset list the optimization runs to completion and returns a
result, with a negative risk aversion it likewise returns a result, and with
`num_slices = 0` the call dies inside the computation with a `math.log2`
domain error (modelled `none`), not a pre-computation rejection. -/
theorem c5_no_input_validation :
    (optimize_portfolio [] mu_zero sigma_zero 1 10 const_sampler).isSome = true
    ∧ (optimize_portfolio ["A"] mu_zero sigma_zero (-1) 10
        const_sampler).isSome = true
    ∧ optimize_portfolio ["A"] mu_zero sigma_zero 1 0 const_sampler = none :=
  ⟨rfl, rfl, rfl⟩

end QDR
